import Mathlib

/-!
# Verification of the Marsalva smart-booking backend availability logic

Shallow embedding of the scheduling core of the `marsalva-smart-backend`
repository (several near-duplicate server variants: V5, V10, V11, V16, V18,
V22).  Instants are modelled as integer minutes on a single civil timeline
(the business's Europe/Madrid wall clock); JavaScript `Date` arithmetic
(`addMinutes`, `setHours`, `getMinutes`-style accessors) becomes plain integer
arithmetic on that timeline.  Latitude/longitude values are rationals; the
haversine distance and the routing-API travel time are abstract oracle
parameters (their numeric values never matter to the control flow verified
here, only the comparisons the code performs on them).  Asynchronous calls
(geocoding, travel time) are deterministic given the process caches, so they
are modelled as pure oracle functions.
-/

namespace Marsalva

/-- Open-interval overlap test, `overlaps` in server.js (V11):
`aStart < bEnd && bStart < aEnd`. -/
def overlaps (aStart aEnd bStart bEnd : Int) : Bool :=
  aStart < bEnd && bStart < aEnd

/-- A geographic coordinate pair (JS `{lat, lng}`). -/
structure Loc where
  lat : Rat
  lng : Rat
deriving Repr, DecidableEq

/-- Business-hour block configuration (an entry of the `SCHEDULE` constant). -/
structure BlockCfg where
  startHour : Nat
  startMinute : Nat
  endHour : Nat
  endMinute : Nat
deriving Repr, DecidableEq

/-- `SCHEDULE.morning` of server.js V11: 09:00 - 14:00. -/
def scheduleMorningV11 : BlockCfg :=
  { startHour := 9, startMinute := 0, endHour := 14, endMinute := 0 }

/-- `SCHEDULE.afternoon` of server.js V11: 17:00 - 20:00. -/
def scheduleAfternoonV11 : BlockCfg :=
  { startHour := 17, startMinute := 0, endHour := 20, endMinute := 0 }

/-- `SCHEDULE.morning` of V5/V10: 09:30 - 14:00. -/
def scheduleMorningV10 : BlockCfg :=
  { startHour := 9, startMinute := 30, endHour := 14, endMinute := 0 }

/-- Does the character list start with the given pattern? -/
def charsStartWith : List Char → List Char → Bool
  | _, [] => true
  | [], _ :: _ => false
  | c :: cs, d :: ds => c == d && charsStartWith cs ds

/-- Does the pattern occur anywhere in the character list? -/
def charsContainsSub : List Char → List Char → Bool
  | [], sub => sub.isEmpty
  | c :: cs, sub => charsStartWith (c :: cs) sub || charsContainsSub cs sub

/-- JS `s.includes(sub)` (substring test), modelled structurally over the
underlying character lists. -/
def includesStr (s sub : String) : Bool :=
  charsContainsSub s.data sub.data

/-- ASCII lower-casing of one character, the relevant fragment of JS
`toLowerCase` for the stored status/city values. -/
def lowerChar (c : Char) : Char :=
  if 'A' ≤ c && c ≤ 'Z' then Char.ofNat (c.toNat + 32) else c

/-- JS `s.toLowerCase()` on the ASCII-ranged strings this backend stores. -/
def lowerStr (s : String) : String :=
  String.mk (s.data.map lowerChar)

/-- JS whitespace for `trim` (the forms occurring in the stored data). -/
def isJsSpace (c : Char) : Bool :=
  c == ' ' || c == '\t' || c == '\n' || c == '\r'

/-- JS `s.trim()`. -/
def trimChars (s : String) : String :=
  String.mk (((s.data.dropWhile isJsSpace).reverse.dropWhile isJsSpace).reverse)

/-- Splitting at a single-character separator, JS `s.split(sep)`. -/
def splitOnCharAux (sep : Char) : List Char → List Char → List (List Char)
  | [], acc => [acc.reverse]
  | c :: cs, acc =>
    if c == sep then acc.reverse :: splitOnCharAux sep cs []
    else splitOnCharAux sep cs (c :: acc)

/-- JS `s.split(sep)` for a one-character separator. -/
def splitOnChar (sep : Char) (s : String) : List String :=
  (splitOnCharAux sep s.data []).map String.mk

/-- JS `a || b` on strings (empty string is falsy). -/
def jsOrString (a b : String) : String :=
  if a = "" then b else a

/-- A JavaScript value as it reaches the duration / range parsing helpers:
an (integer-valued) number, a string, or `undefined`.  Non-integer numbers
do not occur in the stored data these parsers face, so the embedding
restricts numbers to integers. -/
inductive JSVal where
  | num (n : Int)
  | str (s : String)
  | undef
deriving Repr, DecidableEq

/-- JS falsiness for the modelled values (`0`, `""` and `undefined` are
falsy). -/
def jsFalsy : JSVal → Bool
  | .num n => n == 0
  | .str s => s == ""
  | .undef => true

/-- Numeric value of a digit string. -/
def digitsToNat (ds : List Char) : Nat :=
  ds.foldl (fun acc c => acc * 10 + (c.toNat - 48)) 0

/-- Leading decimal digits of a character list. -/
def leadingDigits (cs : List Char) : List Char :=
  cs.takeWhile Char.isDigit

/-- JS `parseInt(s)` (base 10) on the modelled inputs: trim, optional sign,
then the longest leading digit run; `none` models `NaN`. -/
def parseIntJS (s : String) : Option Int :=
  match (trimChars s).toList with
  | '-' :: rest =>
    if (leadingDigits rest).isEmpty then none
    else some (-(digitsToNat (leadingDigits rest) : Int))
  | '+' :: rest =>
    if (leadingDigits rest).isEmpty then none
    else some ((digitsToNat (leadingDigits rest) : Int))
  | cs =>
    if (leadingDigits cs).isEmpty then none
    else some ((digitsToNat (leadingDigits cs) : Int))

/-- JS `Number(s)` on the modelled string inputs: `""` (after trim) is `0`;
a full integer literal parses; everything else (e.g. `"02:30"`, `"abc"`)
is `NaN`, modelled as `none`. -/
def jsNumberOfString (s : String) : Option Int :=
  let t := trimChars s
  if t = "" then some 0
  else match t.toList with
    | '-' :: rest =>
      if !rest.isEmpty && rest.all Char.isDigit then some (-(digitsToNat rest : Int)) else none
    | '+' :: rest =>
      if !rest.isEmpty && rest.all Char.isDigit then some ((digitsToNat rest : Int)) else none
    | cs => if cs.all Char.isDigit then some ((digitsToNat cs : Int)) else none

/-- JS `Number(v)`; `none` models `NaN` (in particular `Number(undefined)`). -/
def jsToNumber : JSVal → Option Int
  | .num n => some n
  | .str s => jsNumberOfString s
  | .undef => none

/-- `parseDurationMinutes` of server.js V11 (lines 94-97):
`const n = typeof v === "number" ? v : Number(v);
return Number.isFinite(n) && n > 0 ? n : 60;`. -/
def parseDurationMinutesV11 (v : JSVal) : Int :=
  match jsToNumber v with
  | some n => if 0 < n then n else 60
  | none => 60

/-- JS `Math.round(n / 60)` for an integer `n` (round half toward plus
infinity = floor of `n/60 + 1/2`). -/
def roundDiv60 (n : Int) : Int :=
  (n + 30).fdiv 60

/-- `parseDurationMinutes` of server.js V10 (lines 685-694).  `none` models
the `NaN` result the source returns when an `"H:M"` split fails to parse.
`Math.round` on the integer-restricted inputs is the identity below 1000. -/
def parseDurationMinutesV10 (v : JSVal) : Option Int :=
  if jsFalsy v then some 60
  else match v with
    | .num n => some (if 1000 < n then roundDiv60 n else n)
    | .str s =>
      let t := trimChars s
      if includesStr t ":" then
        match parseIntJS ((splitOnChar ':' t).headD ""), parseIntJS ((splitOnChar ':' t).getD 1 "") with
        | some h, some m => some (h * 60 + m)
        | _, _ => none
      else
        match parseIntJS t with
        | some k => some (if k == 0 then 60 else k)
        | none => some 60
    | .undef => some 60

/-- The `rangeDays` clamp of server.js V11 line 388:
`Math.min(30, Math.max(1, Number(req.body.rangeDays || 14)))`.
`none` models a `NaN` result (non-numeric input), which makes the day loop
run zero times. -/
def clampRangeDaysV11 (v : JSVal) : Option Int :=
  match jsToNumber (if jsFalsy v then JSVal.num 14 else v) with
  | some n => some (min 30 (max 1 n))
  | none => none

/-- The `rangeDays` clamp of the part_002 V11-variant (line 1047):
`Math.max(1, Math.min(30, Number(req.body?.rangeDays || DEFAULT_RANGE_DAYS)))`
with `DEFAULT_RANGE_DAYS = 14`. -/
def clampRangeDaysAlt (v : JSVal) : Option Int :=
  match jsToNumber (if jsFalsy v then JSVal.num 14 else v) with
  | some n => some (max 1 (min 30 n))
  | none => none

/-- Number of iterations of the candidate-day loop
(`for (let i = 0; i < rangeDays; i++)`); with a `NaN` bound the loop body
never runs. -/
def candidateDaysScannedV11 (v : JSVal) : Nat :=
  match clampRangeDaysV11 v with
  | some n => n.toNat
  | none => 0

/-- The interval `extractIntervalAny` (server.js V11) derives for an
appointment document: absolute start/end instants plus the `YYYY-MM-DD`
day key.  `stop` is `end` in the source (a Lean keyword).  The heterogeneous
date-field parsing itself is not re-verified; the extracted triple is carried
as the document's `interval` field. -/
structure ExtractedInterval where
  start : Int
  stop : Int
  dateKey : String
deriving Repr, DecidableEq

/-- An appointment document as read from the `appointments` collection,
restricted to the fields the V11 occupancy loader consults.  String fields
are `""` when absent (JS falsy); `interval` is the result of
`extractIntervalAny` (`none` when no date/time shape matched). -/
structure ApptDoc where
  cancelled : Bool
  canceled : Bool
  status : String
  state : String
  robotStatus : String
  interval : Option ExtractedInterval
  city : String
  address : String
  lat : Option Rat
  lng : Option Rat
  locationLat : Option Rat
  locationLng : Option Rat
deriving Repr, DecidableEq

/-- `isCancelledAppointment` of server.js V11 (lines 188-191):
`const st = String(data.status || data.state || data.robotStatus || "").toLowerCase();
return data.cancelled === true || data.canceled === true || st.includes("cancel");`. -/
def isCancelledAppointment (d : ApptDoc) : Bool :=
  let st := lowerStr (jsOrString d.status (jsOrString d.state d.robotStatus))
  d.cancelled || d.canceled || includesStr st "cancel"

/-- A normalized busy interval produced by `loadBusyIntervals`. -/
structure BusyEntry where
  dateKey : String
  start : Int
  stop : Int
  city : String
  address : String
  lat : Option Rat
  lng : Option Rat
deriving Repr, DecidableEq

/-- `loadBusyIntervals` of server.js V11 (lines 266-310), after the store
fetch: drop cancelled documents, drop documents without an extractable
interval, drop intervals outside `[fromDate, toDateExclusive)`
(`it.start >= toDateExclusive || it.end < fromDate`), and normalize the
city/address/coordinates fields (`typeof a.lat === "number" ? a.lat :
a.location?.lat ?? null`). -/
def loadBusyIntervals (docs : List ApptDoc) (fromDate toDateExclusive : Int) :
    List BusyEntry :=
  docs.filterMap fun a =>
    if isCancelledAppointment a then none
    else match a.interval with
      | none => none
      | some it =>
        if toDateExclusive ≤ it.start || it.stop < fromDate then none
        else some
          { dateKey := it.dateKey, start := it.start, stop := it.stop,
            city := trimChars a.city, address := trimChars a.address,
            lat := a.lat <|> a.locationLat, lng := a.lng <|> a.locationLng }

/-- `distanceKm` of server.js V11 returns `Infinity` when either argument is
`null` and otherwise the haversine value; only the comparison against the
5 km maximum matters, so the haversine is the oracle `dist` and `none`
models the `Infinity` case. -/
def distanceKmOpt (dist : Loc → Loc → Rat) : Option Loc → Option Loc → Option Rat
  | some a, some b => some (dist a b)
  | _, _ => none

/-- `km > MAX_KM_BETWEEN_VISITS` with `MAX_KM_BETWEEN_VISITS = 5`
(`Infinity > 5` is true). -/
def kmExceedsMax : Option Rat → Bool
  | none => true
  | some q => decide (5 < q)

/-- Coordinate resolution for one busy entry inside the V11 5 km rule:
stored numeric lat/lng if present, otherwise the geocoder result
(`geo` is the memoized `geocodeAddress`, keyed by address and city). -/
def resolveBusyLoc (geo : String → String → Option Loc) (a : BusyEntry) : Option Loc :=
  match a.lat, a.lng with
  | some la, some ln => some { lat := la, lng := ln }
  | _, _ => geo a.address a.city

/-- The 5 km gate computed per slot in server.js V11 (lines 467-486): active
only when the day has busy entries, a Google Maps API key is configured and
the service location resolved; when active, it demands every busy entry of
the day be within 5 km. -/
def slotGateOk (dist : Loc → Loc → Rat) (geo : String → String → Option Loc)
    (apiKey : Bool) (serviceLoc : Option Loc) (dayBusy : List BusyEntry) : Bool :=
  !(!dayBusy.isEmpty && apiKey && serviceLoc.isSome) ||
    dayBusy.all fun a => !kmExceedsMax (distanceKmOpt dist serviceLoc (resolveBusyLoc geo a))

/-- A slot as emitted by the availability endpoints, kept as instants
(the source formats them to `HH:MM` strings at the end). -/
structure SlotOut where
  winStart : Int
  winStop : Int
deriving Repr, DecidableEq

/-- The V11 slot grid loop (server.js lines 447-492).  `cursor` advances by
60 minutes; a slot `[cursor, cursor+60)` is emitted when the real-duration
visit window `[cursor, cursor+durationMin)` stays inside the block, does not
overlap any busy interval of the day, and the 5 km gate passes.  The `fuel`
argument makes the `while` loop structural; the callers below always pass
enough fuel for the guard `cursor + 60 <= blockEnd` to be the only reason
the loop stops. -/
def slotLoopV11 (dist : Loc → Loc → Rat) (geo : String → String → Option Loc)
    (apiKey : Bool) (serviceLoc : Option Loc) (durationMin : Int)
    (dayBusy : List BusyEntry) (blockEnd : Int) : Nat → Int → List SlotOut
  | 0, _ => []
  | fuel + 1, cursor =>
    if cursor + 60 ≤ blockEnd then
      if blockEnd < cursor + durationMin then
        slotLoopV11 dist geo apiKey serviceLoc durationMin dayBusy blockEnd fuel (cursor + 60)
      else if dayBusy.any (fun a => overlaps cursor (cursor + durationMin) a.start a.stop) then
        slotLoopV11 dist geo apiKey serviceLoc durationMin dayBusy blockEnd fuel (cursor + 60)
      else if slotGateOk dist geo apiKey serviceLoc dayBusy then
        { winStart := cursor, winStop := cursor + 60 } ::
          slotLoopV11 dist geo apiKey serviceLoc durationMin dayBusy blockEnd fuel (cursor + 60)
      else
        slotLoopV11 dist geo apiKey serviceLoc durationMin dayBusy blockEnd fuel (cursor + 60)
    else []

/-- `cursor.setMinutes(0,0,0)`: floor an instant to the hour. -/
def floorToHour (x : Int) : Int := x - x % 60

/-- Initial cursor of the V11 grid: floor the block start to the hour, then
step forward one hour if that fell before the block start. -/
def cursorInit (blockStart : Int) : Int :=
  if floorToHour blockStart < blockStart then floorToHour blockStart + 60
  else floorToHour blockStart

/-- All slots the V11 loop emits for one day and block.  `dayStart` is the
day's midnight instant. -/
def slotsForDayV11 (dist : Loc → Loc → Rat) (geo : String → String → Option Loc)
    (apiKey : Bool) (serviceLoc : Option Loc) (durationMin : Int)
    (dayBusy : List BusyEntry) (dayStart : Int) (cfg : BlockCfg) : List SlotOut :=
  let blockStart := dayStart + 60 * (cfg.startHour : Int) + (cfg.startMinute : Int)
  let blockEnd := dayStart + 60 * (cfg.endHour : Int) + (cfg.endMinute : Int)
  slotLoopV11 dist geo apiKey serviceLoc durationMin dayBusy blockEnd
    ((blockEnd - cursorInit blockStart).toNat + 1) (cursorInit blockStart)

/-- One iteration of the V11 candidate-day loop (server.js lines 421-502):
skip weekends, apply the same-locality rule (`focusCity`), generate the
slots, and contribute a `{date, slots}` entry only when at least one slot
survived.  `busy` is the output of `loadBusyIntervals`; `weekend` is
`isWeekendES(day)`. -/
def dayResultV11 (dist : Loc → Loc → Rat) (geo : String → String → Option Loc)
    (apiKey : Bool) (serviceLoc : Option Loc) (serviceCity : String)
    (durationMin : Int) (busy : List BusyEntry) (dayStart : Int)
    (dayKey : String) (weekend : Bool) (cfg : BlockCfg) :
    Option (String × List SlotOut) :=
  if weekend then none
  else
    let dayBusy := busy.filter fun x => x.dateKey == dayKey
    let focusCity := trimChars (((dayBusy.find? fun x => x.city != "").map fun x => x.city).getD "")
    if focusCity != "" && serviceCity != "" && lowerStr focusCity != lowerStr serviceCity then
      none
    else
      let slots := slotsForDayV11 dist geo apiKey serviceLoc durationMin dayBusy dayStart cfg
      if slots.isEmpty then none else some (dayKey, slots)

/-- Hour-range block configuration of V16/V18/V22
(`SCHEDULE = { morning: {startHour, endHour}, ... }`). -/
structure HourCfg where
  startHour : Nat
  endHour : Nat
deriving Repr, DecidableEq

/-- `SCHEDULE.morning` of V16/V18/V22: hours 9 to 14. -/
def scheduleMorningV18 : HourCfg := { startHour := 9, endHour := 14 }

/-- `SCHEDULE.afternoon` of V16/V18/V22: hours 16 to 20. -/
def scheduleAfternoonV18 : HourCfg := { startHour := 16, endHour := 20 }

/-- An existing appointment as the V16/V18 endpoint loads it
(`{start, end = start + duration, lat?, lng?}`). -/
structure JsApp where
  start : Int
  stop : Int
  lat : Option Rat
  lng : Option Rat
deriving Repr, DecidableEq

/-- The availability hour loop shared verbatim by V16 (part_002 lines
1343-1376) and V18 (part_004 lines 209-241): for each whole hour of the
block, the slot starting at that hour is emitted unless it lies in the past
(`slotStart < new Date()`) or its real-duration work window
`[slotStart, slotStart + durationMinutes)` overlaps an existing appointment
of the day.  There is no check that the work window ends before the block
closes.  `dayMid` is the day's midnight instant; `now` the current instant
(the embedding uses one civil timeline for both clocks the source reads). -/
def hourLoopSlots (now dayMid durationMinutes : Int) (dayApps : List JsApp)
    (cfg : HourCfg) : List SlotOut :=
  (List.range' cfg.startHour (cfg.endHour - cfg.startHour)).filterMap fun (hour : Nat) =>
    let slotStart := dayMid + 60 * (hour : Int)
    let workEnd := slotStart + durationMinutes
    if slotStart < now then none
    else if dayApps.any fun b => overlaps slotStart workEnd b.start b.stop then none
    else some { winStart := slotStart, winStop := dayMid + 60 * ((hour : Int) + 1) }

/-- The V18 per-day distance gate (part_004 lines 184-197): the day is
blocked when the request carries coordinates and some appointment of the day
has (truthy) stored coordinates farther than `MAX_DISTANCE_KM = 5` km.
`getDistanceInKm` short-circuits to 0 when any coordinate is missing or 0,
so only appointments with truthy stored coordinates can block. -/
def dayIsBlockedByDistanceV18 (dist : Loc → Loc → Rat) (reqLoc : Option Loc)
    (dayApps : List JsApp) : Bool :=
  match reqLoc with
  | none => false
  | some L =>
    dayApps.any fun a =>
      match a.lat, a.lng with
      | some la, some ln =>
        !(la == 0) && !(ln == 0) && decide (5 < dist L { lat := la, lng := ln })
      | _, _ => false

/-- A calendar-block document (`calendarBlocks` collection, V10): optional
start/end instants, all-day flag, optional city scope, and the denormalized
`dayKeys` array used by the range query. -/
structure CalBlockDoc where
  start : Option Int
  stop : Option Int
  allDay : Bool
  city : String
  dayKeys : List String
deriving Repr, DecidableEq

/-- A calendar block as `getBlocksForDay` (V10, server.js lines 746-763)
returns it: city lower-cased, filtered to blocks that are global
(empty city) or match the client's city. -/
structure CalBlock where
  start : Option Int
  stop : Option Int
  allDay : Bool
  city : String
deriving Repr, DecidableEq

/-- `getBlocksForDay` of V10: the `array-contains dayKey` query followed by
the city-scope filter. -/
def getBlocksForDay (allBlocks : List CalBlockDoc) (dayKey : String)
    (clientCity : String) : List CalBlock :=
  ((allBlocks.filter fun d => d.dayKeys.contains dayKey).map fun d =>
    { start := d.start, stop := d.stop, allDay := d.allDay,
      city := lowerStr (trimChars d.city) : CalBlock }).filter
    fun b => b.city == "" || b.city == lowerStr (trimChars clientCity)

/-- `getMinutesFromMidnight` (V10): hours*60 + minutes of an instant, i.e.
the instant's offset inside its civil day. -/
def getMinutesFromMidnight (x : Int) : Int := x % 1440

/-- The V10 30-minute slot grid (`generateSlotsForDayAndBlock`, server.js
lines 711-722): starts at the block start and pushes every 30 minutes while
strictly before the block end.  Fuel-based structural recursion; callers
pass enough fuel for the guard to be the only stopping reason. -/
def gridLoopV10 (limit : Int) : Nat → Int → List Int
  | 0, _ => []
  | fuel + 1, current =>
    if current < limit then current :: gridLoopV10 limit fuel (current + 30) else []

/-- `generateSlotsForDayAndBlock` of V10 for a day starting at `dayBase`. -/
def generateSlotsForDayAndBlockV10 (dayBase : Int) (cfg : BlockCfg) : List Int :=
  let startT := dayBase + 60 * (cfg.startHour : Int) + (cfg.startMinute : Int)
  let limit := dayBase + 60 * (cfg.endHour : Int) + (cfg.endMinute : Int)
  gridLoopV10 limit ((limit - startT).toNat + 1) startT

/-- An existing same-day appointment as the V10 endpoint loads it. -/
structure ExistingAppt where
  start : Int
  stop : Int
deriving Repr, DecidableEq

/-- The V10 per-slot filter (server.js lines 953-973): drop past slots, drop
slots whose minutes-from-midnight window overlaps a calendar block with both
bounds present, drop slots overlapping an existing appointment; survivors
are emitted with `endTime = start + duration`. -/
def validSlotsV10 (nowES duration : Int) (blocks : List CalBlock)
    (existing : List ExistingAppt) (possibleSlots : List Int) : List SlotOut :=
  possibleSlots.filterMap fun sStart =>
    if sStart < nowES then none
    else
      if blocks.any fun b =>
          match b.start, b.stop with
          | some bs, some be =>
            getMinutesFromMidnight sStart < getMinutesFromMidnight be &&
              getMinutesFromMidnight bs < getMinutesFromMidnight (sStart + duration)
          | _, _ => false
      then none
      else if existing.any fun ex =>
          sStart < ex.stop && ex.start < sStart + duration then none
      else some { winStart := sStart, winStop := sStart + duration }

/-- One iteration of the V10 candidate-day loop (server.js lines 923-982):
skip weekends, skip days with an applicable `allDay` block, filter the
30-minute grid, and contribute the day only when slots survived. -/
def dayResultV10 (nowES duration dayBase : Int) (dayKey : String)
    (weekend : Bool) (allBlocks : List CalBlockDoc) (clientCity : String)
    (existing : List ExistingAppt) (cfg : BlockCfg) :
    Option (String × List SlotOut) :=
  if weekend then none
  else
    let blocks := getBlocksForDay allBlocks dayKey clientCity
    if blocks.any fun b => b.allDay then none
    else
      let valid := validSlotsV10 nowES duration blocks existing
        (generateSlotsForDayAndBlockV10 dayBase cfg)
      if valid.isEmpty then none else some (dayKey, valid)

/-- Home base coordinate (`HOME_ALGECIRAS`). -/
def HOME_ALGECIRAS : Loc := { lat := 36.1408, lng := -5.4562 }

/-- Anti-zigzag cap on travel between consecutive jobs
(`MAX_TRAVEL_ALLOWED_BETWEEN_JOBS`, V5 and part_006). -/
def MAX_TRAVEL_ALLOWED_BETWEEN_JOBS : Int := 30

/-- Fixed margin added to each hop (`TRAVEL_MARGIN_MINUTES`, V5/part_006). -/
def TRAVEL_MARGIN_MINUTES : Int := 15

/-- A stop of the Policy-B route simulation (`{start, end, location}`). -/
structure RouteAppt where
  start : Int
  stop : Int
  location : Loc
deriving Repr, DecidableEq

/-- Stable insertion by start instant, modelling the JS stable
`sort((a, b) => a.start - b.start)`. -/
def insertByStart (x : RouteAppt) : List RouteAppt → List RouteAppt
  | [] => [x]
  | y :: rest => if x.start ≤ y.start then x :: y :: rest else y :: insertByStart x rest

/-- Chronological sort of the day's stops. -/
def sortByStart : List RouteAppt → List RouteAppt
  | [] => []
  | x :: rest => insertByStart x (sortByStart rest)

/-- The pairwise-consecutive overlap scan of `isSlotFeasible`
(`route[i].end > route[i+1].start` for some `i`). -/
def adjacentOverlap : List RouteAppt → Bool
  | a :: b :: rest => b.start < a.stop || adjacentOverlap (b :: rest)
  | _ => false

/-- The route simulation loop of `isSlotFeasible` (V5 lines 232-246,
part_006 lines 210-245): `travel` is the memoized `getTravelTimeMinutes`
oracle; hops beyond the first departure from home must not exceed the
anti-zigzag cap, and the arrival (current time + travel + margin) must not
be later than the stop's start. -/
def routeSim (travel : Loc → Loc → Int) : Loc → Int → Bool → List RouteAppt → Bool
  | _, _, _, [] => true
  | currLoc, currTime, isFirst, appt :: rest =>
    if !isFirst && MAX_TRAVEL_ALLOWED_BETWEEN_JOBS < travel currLoc appt.location then false
    else if appt.start < currTime + (travel currLoc appt.location + TRAVEL_MARGIN_MINUTES) then
      false
    else routeSim travel appt.location appt.stop false rest

/-- `spainDayStart`: midnight of the instant's civil day. -/
def spainDayStart (x : Int) : Int := x - x % 1440

/-- `isSlotFeasible` (V5 lines 211-248, part_006 lines 178-248): reject when
the new stop runs past block close, when the chronologically merged route
has a hard overlap, or when the single-vehicle simulation from home
(departing 08:00) fails. -/
def isSlotFeasible (travel : Loc → Loc → Int) (slotStart : Int)
    (newLocation : Loc) (newDuration : Int) (cfg : BlockCfg)
    (existingAppointments : List RouteAppt) : Bool :=
  let dayBase := spainDayStart slotStart
  let blockEnd := dayBase + 60 * (cfg.endHour : Int) + (cfg.endMinute : Int)
  let newAppt : RouteAppt :=
    { start := slotStart, stop := slotStart + newDuration, location := newLocation }
  if blockEnd < newAppt.stop then false
  else
    let route := sortByStart (existingAppointments ++ [newAppt])
    if adjacentOverlap route then false
    else routeSim travel HOME_ALGECIRAS (dayBase + 60 * 8) true route

/-- Response body of the availability endpoint: a days list on success, an
error message object otherwise. -/
inductive RespBody where
  | days (ds : List (String × List SlotOut))
  | errorMsg (msg : String)
deriving Repr, DecidableEq

/-- An HTTP response as status code plus JSON body. -/
structure HttpResponse where
  status : Nat
  body : RespBody
deriving Repr, DecidableEq

/-- The V11 availability handler around its try/catch (server.js lines
384-509): on success `res.json({days})` (status 200), on any thrown error
`res.status(500).json({error: e.message})`. -/
def availabilityResponseV11 (result : Except String (List (String × List SlotOut))) :
    HttpResponse :=
  match result with
  | .ok ds => { status := 200, body := .days ds }
  | .error e => { status := 500, body := .errorMsg e }

/-- The V22 availability handler around its try/catch (part_003 lines
204-397): on success `res.json({days})`, on any thrown error
`res.json({days: []})` (status 200, empty list). -/
def availabilityResponseV22 (result : Except String (List (String × List SlotOut))) :
    HttpResponse :=
  match result with
  | .ok ds => { status := 200, body := .days ds }
  | .error _ => { status := 200, body := .days [] }

/-- All consecutive hops along `loc :: stops` stay within the anti-zigzag
cap. -/
def hopsOk (travel : Loc → Loc → Int) : Loc → List RouteAppt → Prop
  | _, [] => True
  | L, x :: rest =>
    travel L x.location ≤ MAX_TRAVEL_ALLOWED_BETWEEN_JOBS ∧ hopsOk travel x.location rest

/-! ## Helper lemmas about the embedded loops -/

/-- Every slot emitted by the V11 grid loop starts at or after the cursor,
is a 60-minute display window inside the block, keeps the real-duration
visit window inside the block, and avoids every busy interval of the day. -/
theorem slotLoopV11_mem_spec (dist : Loc → Loc → Rat) (geo : String → String → Option Loc)
    (apiKey : Bool) (serviceLoc : Option Loc) (durationMin : Int)
    (dayBusy : List BusyEntry) (blockEnd : Int) :
    ∀ (fuel : Nat) (cursor : Int) (s : SlotOut),
      s ∈ slotLoopV11 dist geo apiKey serviceLoc durationMin dayBusy blockEnd fuel cursor →
      cursor ≤ s.winStart ∧ s.winStop = s.winStart + 60 ∧ s.winStart + 60 ≤ blockEnd ∧
        s.winStart + durationMin ≤ blockEnd ∧
        ∀ a ∈ dayBusy, overlaps s.winStart (s.winStart + durationMin) a.start a.stop = false := by
  intro fuel
  induction fuel with
  | zero =>
    intro cursor s hs
    simp [slotLoopV11] at hs
  | succ n ih =>
    intro cursor s hs
    rw [slotLoopV11] at hs
    split at hs
    case isFalse => simp at hs
    case isTrue h1 =>
      split at hs
      case isTrue h2 =>
        obtain ⟨hc, rest⟩ := ih (cursor + 60) s hs
        exact ⟨by omega, rest⟩
      case isFalse h2 =>
        split at hs
        case isTrue h3 =>
          obtain ⟨hc, rest⟩ := ih (cursor + 60) s hs
          exact ⟨by omega, rest⟩
        case isFalse h3 =>
          split at hs
          case isFalse h4 =>
            obtain ⟨hc, rest⟩ := ih (cursor + 60) s hs
            exact ⟨by omega, rest⟩
          case isTrue h4 =>
            rcases List.mem_cons.mp hs with hhead | htail
            · subst hhead
              refine ⟨le_refl _, rfl, h1, by show cursor + durationMin ≤ blockEnd; omega, ?_⟩
              intro a ha
              show overlaps cursor (cursor + durationMin) a.start a.stop = false
              cases hov : overlaps cursor (cursor + durationMin) a.start a.stop
              · rfl
              · exact absurd (List.any_eq_true.mpr ⟨a, ha, hov⟩) h3
            · obtain ⟨hc, rest⟩ := ih (cursor + 60) s htail
              exact ⟨by omega, rest⟩

/-- The initial V11 grid cursor never falls before the block start. -/
theorem cursorInit_ge (x : Int) : x ≤ cursorInit x := by
  have h1 : 0 ≤ x % 60 := Int.emod_nonneg x (by norm_num)
  have h2 : x % 60 < 60 := Int.emod_lt_of_pos x (by norm_num)
  unfold cursorInit floorToHour
  split <;> omega

/-- When the per-slot 5 km gate fails, the V11 grid loop emits nothing
(the gate does not depend on the cursor). -/
theorem slotLoopV11_gate_false (dist : Loc → Loc → Rat) (geo : String → String → Option Loc)
    (apiKey : Bool) (serviceLoc : Option Loc) (durationMin : Int)
    (dayBusy : List BusyEntry) (blockEnd : Int)
    (hgate : slotGateOk dist geo apiKey serviceLoc dayBusy = false) :
    ∀ (fuel : Nat) (cursor : Int),
      slotLoopV11 dist geo apiKey serviceLoc durationMin dayBusy blockEnd fuel cursor = [] := by
  intro fuel
  induction fuel with
  | zero => intro cursor; rfl
  | succ n ih =>
    intro cursor
    rw [slotLoopV11]
    split
    case isFalse => rfl
    case isTrue h1 =>
      split
      case isTrue => exact ih _
      case isFalse =>
        split
        case isTrue => exact ih _
        case isFalse =>
          split
          case isTrue h4 => rw [hgate] at h4; exact absurd h4 (by simp)
          case isFalse => exact ih _

/-- Every slot the V16/V18 hour loop emits is not in the past, starts on a
whole hour of the block's hour range, and displays a 60-minute window ending
no later than the block's end hour. -/
theorem hourLoopSlots_mem_spec (now dayMid durationMinutes : Int) (dayApps : List JsApp)
    (cfg : HourCfg) (s : SlotOut)
    (hs : s ∈ hourLoopSlots now dayMid durationMinutes dayApps cfg) :
    now ≤ s.winStart ∧ dayMid + 60 * (cfg.startHour : Int) ≤ s.winStart ∧
      s.winStop = s.winStart + 60 ∧ s.winStop ≤ dayMid + 60 * (cfg.endHour : Int) := by
  unfold hourLoopSlots at hs
  obtain ⟨hour, hmem, hf⟩ := List.mem_filterMap.mp hs
  have hrange := List.mem_range'_1.mp hmem
  dsimp only at hf
  split at hf
  · exact absurd hf (by simp)
  case isFalse hpast =>
    split at hf
    · exact absurd hf (by simp)
    · have hs' : s = (⟨dayMid + 60 * (hour : Int), dayMid + 60 * ((hour : Int) + 1)⟩ : SlotOut) := by
        exact (Option.some_inj.mp hf).symm
      subst hs'
      have hlo : cfg.startHour ≤ hour := hrange.1
      have hhi : hour < cfg.startHour + (cfg.endHour - cfg.startHour) := hrange.2
      refine ⟨?_, ?_, ?_, ?_⟩
      · show now ≤ dayMid + 60 * (hour : Int)
        omega
      · show dayMid + 60 * (cfg.startHour : Int) ≤ dayMid + 60 * (hour : Int)
        omega
      · show dayMid + 60 * ((hour : Int) + 1) = dayMid + 60 * (hour : Int) + 60
        ring
      · show dayMid + 60 * ((hour : Int) + 1) ≤ dayMid + 60 * (cfg.endHour : Int)
        omega

/-! ## Claim theorems -/

/-- C1: for every day the V11 availability endpoint returns, no returned
slot's actual-duration window `[slotStart, slotStart + durationMin)`
overlaps the `[start, end)` interval of any non-cancelled booking of that
day (open-interval test `aStart < bEnd && bStart < aEnd`); documents flagged
cancelled by any recognized spelling are excluded from the occupancy list
before the check, so the guarantee is stated for the non-cancelled ones. -/
theorem slotsV11_no_overlap_noncancelled
    (dist : Loc → Loc → Rat) (geo : String → String → Option Loc)
    (apiKey : Bool) (serviceLoc : Option Loc) (serviceCity : String)
    (durationMin : Int) (docs : List ApptDoc) (fromDate toDateExclusive : Int)
    (dayStart : Int) (dayKey : String) (weekend : Bool) (cfg : BlockCfg)
    (k : String) (slots : List SlotOut) (s : SlotOut) (d : ApptDoc)
    (iv : ExtractedInterval)
    (hday : dayResultV11 dist geo apiKey serviceLoc serviceCity durationMin
      (loadBusyIntervals docs fromDate toDateExclusive) dayStart dayKey weekend cfg =
      some (k, slots))
    (hs : s ∈ slots)
    (hd : d ∈ docs)
    (hnc : isCancelledAppointment d = false)
    (hiv : d.interval = some iv)
    (hkey : iv.dateKey = dayKey)
    (hlo : fromDate ≤ iv.stop)
    (hhi : iv.start < toDateExclusive) :
    overlaps s.winStart (s.winStart + durationMin) iv.start iv.stop = false := by
  have hbusy : (⟨iv.dateKey, iv.start, iv.stop, trimChars d.city, trimChars d.address, d.lat <|> d.locationLat, d.lng <|> d.locationLng⟩ : BusyEntry) ∈
      loadBusyIntervals docs fromDate toDateExclusive := by
    unfold loadBusyIntervals
    apply List.mem_filterMap.mpr
    refine ⟨d, hd, ?_⟩
    rw [hnc, hiv]
    simp only [Bool.false_eq_true, if_false]
    split
    case isTrue h => simp at h; omega
    case isFalse h => rfl
  unfold dayResultV11 at hday
  split at hday
  case isTrue => exact absurd hday (by simp)
  case isFalse hw =>
    dsimp only at hday
    split at hday
    case isTrue => exact absurd hday (by simp)
    case isFalse hcity =>
      split at hday
      case isTrue => exact absurd hday (by simp)
      case isFalse hne =>
        have hslots : slots = slotsForDayV11 dist geo apiKey serviceLoc durationMin
            ((loadBusyIntervals docs fromDate toDateExclusive).filter
              fun x => x.dateKey == dayKey) dayStart cfg := by
          have := (Option.some_inj.mp hday)
          exact (congrArg Prod.snd this).symm
        rw [hslots] at hs
        unfold slotsForDayV11 at hs
        have hspec := slotLoopV11_mem_spec dist geo apiKey serviceLoc durationMin
          ((loadBusyIntervals docs fromDate toDateExclusive).filter
            fun x => x.dateKey == dayKey)
          (dayStart + 60 * (cfg.endHour : Int) + (cfg.endMinute : Int)) _ _ s hs
        have hfil : (⟨iv.dateKey, iv.start, iv.stop, trimChars d.city, trimChars d.address, d.lat <|> d.locationLat, d.lng <|> d.locationLng⟩ : BusyEntry) ∈
            (loadBusyIntervals docs fromDate toDateExclusive).filter
              fun x => x.dateKey == dayKey := by
          apply List.mem_filter.mpr
          exact ⟨hbusy, by simp [hkey]⟩
        exact hspec.2.2.2.2 _ hfil

/-- C1 witness: a concrete non-cancelled 10:00-11:00 booking and the
returned 09:00 slot (duration 60) do not overlap. -/
theorem slotsV11_no_overlap_noncancelled_witness :
    overlaps 540 600 600 660 = false := by
  have h := slotsV11_no_overlap_noncancelled (fun _ _ => 0) (fun _ _ => none) false none "" 60
    [⟨false, false, "", "", "", some ⟨600, 660, "d"⟩, "", "", none, none, none, none⟩]
    0 1440 0 "d" false scheduleMorningV11 "d"
    [⟨540, 600⟩, ⟨660, 720⟩, ⟨720, 780⟩, ⟨780, 840⟩] ⟨540, 600⟩
    ⟨false, false, "", "", "", some ⟨600, 660, "d"⟩, "", "", none, none, none, none⟩
    ⟨600, 660, "d"⟩ (by decide) (by decide) (by decide) (by decide) (by decide) (by decide)
    (by decide) (by decide)
  simpa using h

/-- C2 counterexample: in the V16/V18 hour loop, with a 90-minute service
duration, morning block 9-14, no bookings and the current instant before the
day, the 13:00 slot (start minute 780 of the day) is offered even though
13:00 + 90 min = 14:30 runs past the block end 14:00 (minute 840): the hour
loop never compares `slotStart + durationMinutes` with the block close.  This
refutes the claim that `slot.start + serviceDuration <= blockEnd` holds for
every generated slot. -/
theorem hourLoopV16_slot_runs_past_block_close :
    (⟨780, 840⟩ : SlotOut) ∈ hourLoopSlots (-1) 0 90 [] scheduleMorningV18 ∧
      (0 + 60 * ((scheduleMorningV18.endHour : Int)) : Int) < 780 + 90 := by
  constructor
  · decide
  · decide

/-- C2 amended: in the V11 grid loop every emitted slot starts inside the
block's configured range and its real-duration window ends by the block
end; in the V16/V18 hour loop the slot start still lies inside the block's
hour range (and the 60-minute display window ends by the block's end hour),
but no bound relates `slot.start + serviceDuration` to the block end. -/
theorem slots_within_block_bounds
    (dist : Loc → Loc → Rat) (geo : String → String → Option Loc)
    (apiKey : Bool) (serviceLoc : Option Loc) (durationMin : Int)
    (dayBusy : List BusyEntry) (dayStart : Int) (cfg : BlockCfg) (s : SlotOut)
    (now dayMid durationMinutes : Int) (dayApps : List JsApp) (hcfg : HourCfg)
    (t : SlotOut)
    (hs : s ∈ slotsForDayV11 dist geo apiKey serviceLoc durationMin dayBusy dayStart cfg)
    (ht : t ∈ hourLoopSlots now dayMid durationMinutes dayApps hcfg) :
    (dayStart + 60 * (cfg.startHour : Int) + (cfg.startMinute : Int) ≤ s.winStart ∧
      s.winStart + 60 ≤ dayStart + 60 * (cfg.endHour : Int) + (cfg.endMinute : Int) ∧
      s.winStart + durationMin ≤ dayStart + 60 * (cfg.endHour : Int) + (cfg.endMinute : Int)) ∧
    (dayMid + 60 * (hcfg.startHour : Int) ≤ t.winStart ∧
      t.winStop = t.winStart + 60 ∧ t.winStop ≤ dayMid + 60 * (hcfg.endHour : Int)) := by
  constructor
  · unfold slotsForDayV11 at hs
    have hspec := slotLoopV11_mem_spec dist geo apiKey serviceLoc durationMin dayBusy
      (dayStart + 60 * (cfg.endHour : Int) + (cfg.endMinute : Int)) _ _ s hs
    have hcur := cursorInit_ge (dayStart + 60 * (cfg.startHour : Int) + (cfg.startMinute : Int))
    exact ⟨le_trans hcur hspec.1, hspec.2.2.1, hspec.2.2.2.1⟩
  · have hspec := hourLoopSlots_mem_spec now dayMid durationMinutes dayApps hcfg t ht
    exact ⟨hspec.2.1, hspec.2.2.1, hspec.2.2.2⟩

/-- C2 amended witness: instantiated at the V11 morning grid with duration
90 (slot 12:00 of a day starting at minute 0) and at the V16 hour loop. -/
theorem slots_within_block_bounds_witness :
    ((0 + 60 * ((9 : Nat) : Int) + ((0 : Nat) : Int) ≤ (720 : Int) ∧
      (720 : Int) + 60 ≤ 0 + 60 * ((14 : Nat) : Int) + ((0 : Nat) : Int) ∧
      (720 : Int) + 90 ≤ 0 + 60 * ((14 : Nat) : Int) + ((0 : Nat) : Int)) ∧
    (0 + 60 * ((9 : Nat) : Int) ≤ (540 : Int) ∧
      (600 : Int) = 540 + 60 ∧ (600 : Int) ≤ 0 + 60 * ((14 : Nat) : Int))) := by
  have h := slots_within_block_bounds (fun _ _ => 0) (fun _ _ => none) false none 90 [] 0
    scheduleMorningV11 ⟨720, 780⟩ (-1) 0 60 [] scheduleMorningV18 ⟨540, 600⟩
    (by decide) (by decide)
  exact h

/-- C3: under the V11 distance-gate policy - API key configured and service
location resolved - a day whose busy list contains a booking with stored
coordinates farther than 5 km from the service location yields no entry at
all in the availability output (the per-slot 5 km rule rejects every slot,
so the day is dropped). -/
theorem dayResultV11_far_booking_excludes_day
    (dist : Loc → Loc → Rat) (geo : String → String → Option Loc)
    (L : Loc) (serviceCity : String) (durationMin : Int)
    (busy : List BusyEntry) (dayStart : Int) (dayKey : String) (weekend : Bool)
    (cfg : BlockCfg) (e : BusyEntry) (la ln : Rat)
    (he : e ∈ busy) (hek : e.dateKey = dayKey)
    (hela : e.lat = some la) (heln : e.lng = some ln)
    (hfar : 5 < dist L ⟨la, ln⟩) :
    dayResultV11 dist geo true (some L) serviceCity durationMin busy dayStart dayKey
      weekend cfg = none := by
  unfold dayResultV11
  split
  case isTrue => rfl
  case isFalse hw =>
    dsimp only
    split
    case isTrue => rfl
    case isFalse hcity =>
      have hmem : e ∈ busy.filter (fun x => x.dateKey == dayKey) :=
        List.mem_filter.mpr ⟨he, by simp [hek]⟩
      have hne : (busy.filter (fun x => x.dateKey == dayKey)).isEmpty = false := by
        cases hfa : busy.filter (fun x => x.dateKey == dayKey) with
        | nil => rw [hfa] at hmem; simp at hmem
        | cons a l => rfl
      have hall : (busy.filter (fun x => x.dateKey == dayKey)).all
          (fun a => !kmExceedsMax (distanceKmOpt dist (some L) (resolveBusyLoc geo a))) =
            false := by
        cases hx : (busy.filter (fun x => x.dateKey == dayKey)).all
            (fun a => !kmExceedsMax (distanceKmOpt dist (some L) (resolveBusyLoc geo a)))
        · rfl
        · exfalso
          have := List.all_eq_true.mp hx e hmem
          rw [resolveBusyLoc, hela, heln] at this
          simp [distanceKmOpt, kmExceedsMax, hfar] at this
      have hgate : slotGateOk dist geo true (some L)
          (busy.filter (fun x => x.dateKey == dayKey)) = false := by
        unfold slotGateOk
        rw [hne, hall]
        rfl
      have hslots : slotsForDayV11 dist geo true (some L) durationMin
          (busy.filter (fun x => x.dateKey == dayKey)) dayStart cfg = [] := by
        unfold slotsForDayV11
        exact slotLoopV11_gate_false dist geo true (some L) durationMin _ _ hgate _ _
      rw [hslots]
      rfl

/-- C3 witness: a single 10:00-11:00 booking with stored coordinates, the
distance oracle reporting 6 km, an API key present and a resolved service
location - the whole day disappears from the V11 availability output. -/
theorem dayResultV11_far_booking_excludes_day_witness :
    dayResultV11 (fun _ _ => 6) (fun _ _ => none) true (some ⟨0, 0⟩) "" 60
      [⟨"d", 600, 660, "", "", some 1, some 1⟩] 0 "d" false scheduleMorningV11 = none := by
  exact dayResultV11_far_booking_excludes_day (fun _ _ => 6) (fun _ _ => none) ⟨0, 0⟩ "" 60
    [⟨"d", 600, 660, "", "", some 1, some 1⟩] 0 "d" false scheduleMorningV11
    ⟨"d", 600, 660, "", "", some 1, some 1⟩ 1 1 (by decide) rfl rfl rfl (by norm_num)

/-- C4 counterexample: the V11 availability endpoint (server.js lines
384-509) performs no `calendarBlocks` lookup at all - its day computation
takes no DayBlock input - so a stored all-day block applicable to a day
leaves the V11 output unchanged: here an `allDay` block lists day
`2031-01-06` in its `dayKeys`, yet the V11 endpoint still returns all five
morning slots for that day, refuting "a day having an allDay DayBlock
produces zero slots in the response" for this variant. -/
theorem dayResultV11_ignores_allDay_block :
    ((⟨none, none, true, "", ["2031-01-06"]⟩ : CalBlockDoc).allDay = true ∧
      ((⟨none, none, true, "", ["2031-01-06"]⟩ : CalBlockDoc).dayKeys.contains "2031-01-06")
        = true) ∧
    dayResultV11 (fun _ _ => 0) (fun _ _ => none) false none "" 60 [] 0 "2031-01-06" false
      scheduleMorningV11 =
      some ("2031-01-06",
        [⟨540, 600⟩, ⟨600, 660⟩, ⟨660, 720⟩, ⟨720, 780⟩, ⟨780, 840⟩]) := by
  exact ⟨⟨rfl, by decide⟩, by decide⟩

/-- C4 amended: in the V10 availability endpoint (the variant that loads
`calendarBlocks`), a returned day has no applicable `allDay` block, and no
returned slot's minutes-from-midnight window overlaps any applicable
DayBlock window with both bounds present; the V11 endpoint does not consult
DayBlocks at all (see the counterexample). -/
theorem dayResultV10_respects_dayBlocks
    (nowES duration dayBase : Int) (dayKey : String) (weekend : Bool)
    (allBlocks : List CalBlockDoc) (clientCity : String)
    (existing : List ExistingAppt) (cfg : BlockCfg) (k : String) (slots : List SlotOut)
    (hday : dayResultV10 nowES duration dayBase dayKey weekend allBlocks clientCity
      existing cfg = some (k, slots)) :
    (∀ b ∈ getBlocksForDay allBlocks dayKey clientCity, b.allDay = false) ∧
    ∀ s ∈ slots, ∀ b ∈ getBlocksForDay allBlocks dayKey clientCity, ∀ bs be : Int,
      b.start = some bs → b.stop = some be →
      (getMinutesFromMidnight s.winStart < getMinutesFromMidnight be &&
        getMinutesFromMidnight bs < getMinutesFromMidnight (s.winStart + duration)) = false := by
  unfold dayResultV10 at hday
  split at hday
  case isTrue => exact absurd hday (by simp)
  case isFalse hw =>
    dsimp only at hday
    split at hday
    case isTrue => exact absurd hday (by simp)
    case isFalse hAllDay =>
      constructor
      · intro b hb
        cases hbAll : b.allDay
        · rfl
        · exact absurd (List.any_eq_true.mpr ⟨b, hb, hbAll⟩) hAllDay
      · split at hday
        case isTrue => exact absurd hday (by simp)
        case isFalse hne =>
          have hslots : slots = validSlotsV10 nowES duration
              (getBlocksForDay allBlocks dayKey clientCity) existing
              (generateSlotsForDayAndBlockV10 dayBase cfg) :=
            (congrArg Prod.snd (Option.some_inj.mp hday)).symm
          intro s hs b hb bs be hbs hbe
          rw [hslots] at hs
          unfold validSlotsV10 at hs
          obtain ⟨sStart, hsp, hf⟩ := List.mem_filterMap.mp hs
          split at hf
          · exact absurd hf (by simp)
          case isFalse hpast =>
            split at hf
            · exact absurd hf (by simp)
            case isFalse hblocked =>
              split at hf
              · exact absurd hf (by simp)
              case isFalse hov =>
                have hs' : s = (⟨sStart, sStart + duration⟩ : SlotOut) :=
                  (Option.some_inj.mp hf).symm
                subst hs'
                show (getMinutesFromMidnight sStart < getMinutesFromMidnight be &&
                  getMinutesFromMidnight bs <
                    getMinutesFromMidnight (sStart + duration)) = false
                cases hcond : (getMinutesFromMidnight sStart < getMinutesFromMidnight be &&
                  getMinutesFromMidnight bs < getMinutesFromMidnight (sStart + duration))
                · rfl
                · exfalso
                  apply hblocked
                  apply List.any_eq_true.mpr
                  refine ⟨b, hb, ?_⟩
                  simp only [hbs, hbe]
                  exact hcond

/-- C4 amended witness: a morning day with a 12:00-13:00 global block and a
10:00-11:00 booking - the V10 endpoint returns exactly the slots clear of
both, and the conclusions hold on that concrete output. -/
theorem dayResultV10_respects_dayBlocks_witness :
    (∀ b ∈ getBlocksForDay [⟨some 720, some 780, false, "", ["d"]⟩] "d" "",
      b.allDay = false) ∧
    ∀ s ∈ [(⟨660, 720⟩ : SlotOut), ⟨780, 840⟩, ⟨810, 870⟩],
      ∀ b ∈ getBlocksForDay [⟨some 720, some 780, false, "", ["d"]⟩] "d" "", ∀ bs be : Int,
      b.start = some bs → b.stop = some be →
      (getMinutesFromMidnight s.winStart < getMinutesFromMidnight be &&
        getMinutesFromMidnight bs < getMinutesFromMidnight (s.winStart + 60)) = false := by
  exact dayResultV10_respects_dayBlocks 0 60 0 "d" false
    [⟨some 720, some 780, false, "", ["d"]⟩] "" [⟨600, 660⟩] scheduleMorningV10 "d"
    [⟨660, 720⟩, ⟨780, 840⟩, ⟨810, 870⟩] (by decide)

/-- With no API key the V11 5 km gate is vacuously satisfied, so the grid
loop's output does not depend on the distance oracle, the geocoder, or the
service location. -/
theorem slotLoopV11_no_key_oracle_independent (dist₁ dist₂ : Loc → Loc → Rat)
    (geo₁ geo₂ : String → String → Option Loc) (sl₁ sl₂ : Option Loc)
    (durationMin : Int) (dayBusy : List BusyEntry) (blockEnd : Int) :
    ∀ (fuel : Nat) (cursor : Int),
      slotLoopV11 dist₁ geo₁ false sl₁ durationMin dayBusy blockEnd fuel cursor =
      slotLoopV11 dist₂ geo₂ false sl₂ durationMin dayBusy blockEnd fuel cursor := by
  have hg₁ : slotGateOk dist₁ geo₁ false sl₁ dayBusy = true := by simp [slotGateOk]
  have hg₂ : slotGateOk dist₂ geo₂ false sl₂ dayBusy = true := by simp [slotGateOk]
  intro fuel
  induction fuel with
  | zero => intro cursor; rfl
  | succ n ih =>
    intro cursor
    rw [slotLoopV11, slotLoopV11, hg₁, hg₂]
    simp only [ih]

/-- C5 counterexample: a day holding a 10:00-11:00 booking with no stored
coordinates, no geocoding credential configured (`apiKey = false`) and the
distance-gate variant (V11): the day is NOT excluded - the endpoint still
returns the four non-overlapping morning slots, refuting "zero slots for
that entire day". -/
theorem dayResultV11_unknown_location_day_still_offered :
    dayResultV11 (fun _ _ => 0) (fun _ _ => none) false none "" 60
      (loadBusyIntervals
        [⟨false, false, "", "", "", some ⟨600, 660, "d"⟩, "", "", none, none, none, none⟩]
        0 1440)
      0 "d" false scheduleMorningV11 =
      some ("d", [⟨540, 600⟩, ⟨660, 720⟩, ⟨720, 780⟩, ⟨780, 840⟩]) := by
  decide

/-- C5 amended: when no geocoding credential is configured the V11 endpoint
skips the 5 km check entirely and behaves optimistically: its per-day output
is completely independent of the distance oracle, the geocoder and the
service location, so a day whose bookings have no usable location data is
offered exactly as if the distance rule did not exist (see the
counterexample for the concrete 10:00-11:00 scenario). -/
theorem dayResultV11_no_credential_skips_distance_check
    (dist₁ dist₂ : Loc → Loc → Rat) (geo₁ geo₂ : String → String → Option Loc)
    (sl₁ sl₂ : Option Loc) (serviceCity : String) (durationMin : Int)
    (busy : List BusyEntry) (dayStart : Int) (dayKey : String) (weekend : Bool)
    (cfg : BlockCfg) :
    dayResultV11 dist₁ geo₁ false sl₁ serviceCity durationMin busy dayStart dayKey
      weekend cfg =
    dayResultV11 dist₂ geo₂ false sl₂ serviceCity durationMin busy dayStart dayKey
      weekend cfg := by
  unfold dayResultV11 slotsForDayV11
  simp only [slotLoopV11_no_key_oracle_independent dist₁ dist₂ geo₁ geo₂ sl₁ sl₂]

/-- C6 counterexample: the V11 slot loop reads no clock at all, so past
slots of the current day are returned.  With the current day starting at
minute 14400 and the current instant 15180 (= 13:00 that day), the 09:00
slot (start 14940 < 15180) is still in the output, refuting "a slot on the
current day whose start time is earlier than the current time-of-day never
appears". -/
theorem dayResultV11_past_slot_still_offered :
    dayResultV11 (fun _ _ => 0) (fun _ _ => none) false none "" 60 [] 14400 "2030-05-10"
      false scheduleMorningV11 =
      some ("2030-05-10",
        [⟨14940, 15000⟩, ⟨15000, 15060⟩, ⟨15060, 15120⟩, ⟨15120, 15180⟩,
          ⟨15180, 15240⟩]) ∧
    (14940 : Int) < 15180 := by
  exact ⟨by decide, by decide⟩

/-- C6 amended: the V16/V18 hour loop does satisfy the claim - every
returned slot starts at or after the current instant, and for a day lying
strictly after the current day the returned slots do not depend on the
current time-of-day; the V11 slot loop performs no past-slot filtering (see
the counterexample). -/
theorem hourLoopV18_past_filter_and_future_independence :
    (∀ (now dayMid dur : Int) (apps : List JsApp) (cfg : HourCfg) (s : SlotOut),
      s ∈ hourLoopSlots now dayMid dur apps cfg → now ≤ s.winStart) ∧
    (∀ (todayMid now₁ now₂ dayMid dur : Int) (apps : List JsApp) (cfg : HourCfg),
      todayMid ≤ now₁ → now₁ < todayMid + 1440 →
      todayMid ≤ now₂ → now₂ < todayMid + 1440 →
      todayMid + 1440 ≤ dayMid →
      hourLoopSlots now₁ dayMid dur apps cfg = hourLoopSlots now₂ dayMid dur apps cfg) := by
  constructor
  · intro now dayMid dur apps cfg s hs
    exact (hourLoopSlots_mem_spec now dayMid dur apps cfg s hs).1
  · intro todayMid now₁ now₂ dayMid dur apps cfg h1 h2 h3 h4 h5
    unfold hourLoopSlots
    apply List.filterMap_congr
    intro hour hmem
    have hs1 : ¬ dayMid + 60 * (hour : Int) < now₁ := by
      have : (0 : Int) ≤ 60 * (hour : Int) := by positivity
      omega
    have hs2 : ¬ dayMid + 60 * (hour : Int) < now₂ := by
      have : (0 : Int) ≤ 60 * (hour : Int) := by positivity
      omega
    dsimp only
    rw [if_neg hs1, if_neg hs2]

/-- C6 amended witness: at a concrete future day (midnight 1440) with the
current instant inside day 0, the first part gives `now ≤ slotStart` for the
09:00 slot and the second part gives equality of the outputs at two
different times of day. -/
theorem hourLoopV18_past_filter_witness :
    ((700 : Int) ≤ 780) ∧
      hourLoopSlots 100 1440 60 [] scheduleMorningV18 =
        hourLoopSlots 900 1440 60 [] scheduleMorningV18 := by
  constructor
  · exact hourLoopV18_past_filter_and_future_independence.1 700 0 60 [] scheduleMorningV18
      ⟨780, 840⟩ (by decide)
  · exact hourLoopV18_past_filter_and_future_independence.2 0 100 900 1440 60 []
      scheduleMorningV18 (by decide) (by decide) (by decide) (by decide) (by decide)

/-- If the route simulation succeeds with the first-hop exemption already
spent, every hop along the way respected the anti-zigzag cap. -/
theorem routeSim_hopsOk (travel : Loc → Loc → Int) :
    ∀ (l : List RouteAppt) (L : Loc) (T : Int),
      routeSim travel L T false l = true → hopsOk travel L l := by
  intro l
  induction l with
  | nil => intro L T _; trivial
  | cons x rest ih =>
    intro L T h
    rw [routeSim] at h
    split at h
    · exact absurd h (by simp)
    case isFalse h1 =>
      split at h
      · exact absurd h (by simp)
      case isFalse h2 =>
        refine ⟨?_, ih x.location x.stop h⟩
        simp only [Bool.not_false, Bool.true_and, decide_eq_true_eq] at h1
        exact not_lt.mp h1

/-- A chain of cap-respecting hops bounds the travel between any two
adjacent stops of the list. -/
theorem hopsOk_adjacent (travel : Loc → Loc → Int) :
    ∀ (pre : List RouteAppt) (L : Loc) (l : List RouteAppt) (a b : RouteAppt)
      (post : List RouteAppt), hopsOk travel L l → l = pre ++ a :: b :: post →
      travel a.location b.location ≤ MAX_TRAVEL_ALLOWED_BETWEEN_JOBS := by
  intro pre
  induction pre with
  | nil =>
    intro L l a b post h hl
    subst hl
    exact h.2.1
  | cons p pre2 ih =>
    intro L l a b post h hl
    subst hl
    exact ih p.location _ a b post h.2 rfl

/-- A successful full simulation (first hop exempt) still bounds the travel
between adjacent stops beyond the first. -/
theorem routeSim_true_adjacent (travel : Loc → Loc → Int) (route : List RouteAppt)
    (L0 : Loc) (T0 : Int) (h : routeSim travel L0 T0 true route = true)
    (pre : List RouteAppt) (a b : RouteAppt) (post : List RouteAppt)
    (hl : route = pre ++ a :: b :: post) :
    travel a.location b.location ≤ MAX_TRAVEL_ALLOWED_BETWEEN_JOBS := by
  cases route with
  | nil => simp at hl
  | cons x rest =>
    rw [routeSim] at h
    split at h
    · exact absurd h (by simp)
    · split at h
      · exact absurd h (by simp)
      · have hchain := routeSim_hopsOk travel rest x.location x.stop h
        cases pre with
        | nil =>
          have hx : x = a ∧ rest = b :: post := by
            constructor
            · exact (List.cons_eq_cons.mp hl).1
            · exact (List.cons_eq_cons.mp hl).2
          obtain ⟨hxa, hrest⟩ := hx
          subst hxa
          rw [hrest] at hchain
          exact hchain.1
        | cons p pre2 =>
          have hrest : rest = pre2 ++ a :: b :: post := (List.cons_eq_cons.mp hl).2
          exact hopsOk_adjacent travel pre2 x.location rest a b post hchain hrest

/-- C7: in the Policy-B route validator `isSlotFeasible` (V5/part_006), if
merging the hypothetical new stop with the day's existing stops in
chronological order produces two consecutive stops (beyond the first
departure from home) whose computed single-hop travel time exceeds the
30-minute anti-zigzag maximum, the candidate slot is rejected. -/
theorem isSlotFeasible_antizigzag (travel : Loc → Loc → Int) (slotStart : Int)
    (newLocation : Loc) (newDuration : Int) (cfg : BlockCfg)
    (existingAppointments : List RouteAppt) (pre post : List RouteAppt)
    (a b : RouteAppt)
    (hroute : sortByStart (existingAppointments ++
      [⟨slotStart, slotStart + newDuration, newLocation⟩]) = pre ++ a :: b :: post)
    (hfar : MAX_TRAVEL_ALLOWED_BETWEEN_JOBS < travel a.location b.location) :
    isSlotFeasible travel slotStart newLocation newDuration cfg
      existingAppointments = false := by
  unfold isSlotFeasible
  dsimp only
  split
  · rfl
  case isFalse h1 =>
    split
    · rfl
    case isFalse h2 =>
      cases hres : routeSim travel HOME_ALGECIRAS (spainDayStart slotStart + 60 * 8) true
        (sortByStart (existingAppointments ++
          [⟨slotStart, slotStart + newDuration, newLocation⟩]))
      · rfl
      · exfalso
        have := routeSim_true_adjacent travel _ _ _ hres pre a b post hroute
        omega

/-- C7 witness: an existing 09:00-10:00 stop and a candidate 11:00 slot
whose mutual travel time is 31 minutes: the slot is rejected. -/
theorem isSlotFeasible_antizigzag_witness :
    isSlotFeasible (fun _ _ => 31) 660 ⟨1, 1⟩ 60 scheduleMorningV10
      [⟨540, 600, ⟨0, 0⟩⟩] = false := by
  exact isSlotFeasible_antizigzag (fun _ _ => 31) 660 ⟨1, 1⟩ 60 scheduleMorningV10
    [⟨540, 600, ⟨0, 0⟩⟩] [] [] ⟨540, 600, ⟨0, 0⟩⟩ ⟨660, 720, ⟨1, 1⟩⟩ (by decide) (by decide)

/-- C8 counterexample: the V11 availability catch handler answers a thrown
error with a 500 error response, not a successful empty-days response. -/
theorem availabilityV11_error_returns_500 :
    availabilityResponseV11 (Except.error "store query failed") =
      { status := 500, body := RespBody.errorMsg "store query failed" } ∧
    (500 : Nat) ≠ 200 := by
  exact ⟨rfl, by decide⟩

/-- C8 amended: only the V22 variant degrades unexpected availability
failures to a successful empty-days response; the V11 variant (server.js)
turns them into a 500 error response. -/
theorem availability_error_handling_by_variant :
    (∀ e : String, availabilityResponseV22 (Except.error e) =
      { status := 200, body := RespBody.days [] }) ∧
    (∀ e : String, (availabilityResponseV11 (Except.error e)).status = 500) ∧
    (∀ ds, availabilityResponseV22 (Except.ok ds) =
      { status := 200, body := RespBody.days ds }) := by
  exact ⟨fun _ => rfl, fun _ => rfl, fun _ => rfl⟩

/-- C9 counterexample: the V11 duration parser returns 3600 for the numeric
input 3600 (no seconds-to-minutes division), and the V10 parser returns -5
for the negative input -5 (no non-positive default): both contradict the
claimed specification (which demands 60 in each case). -/
theorem parseDuration_spec_violations :
    parseDurationMinutesV11 (JSVal.num 3600) = 3600 ∧ (3600 : Int) ≠ 60 ∧
    parseDurationMinutesV10 (JSVal.num (-5)) = some (-5) ∧ ((-5 : Int) ≠ 60) := by
  exact ⟨by decide, by decide, by decide, by decide⟩

/-- C9 amended: the V10 parser implements the heuristic - minutes for
positive numbers up to 1000, seconds divided by 60 (rounded) above 1000,
`"HH:MM"` as hours*60+minutes, numeric strings via parseInt, 60 for falsy or
unparseable inputs - but passes negative numbers through unchanged; the V11
parser returns any positive number unchanged (no seconds heuristic) and 60
for everything else, including `"HH:MM"` strings. -/
theorem parseDuration_characterization :
    (∀ n : Int, 0 < n → n ≤ 1000 → parseDurationMinutesV10 (JSVal.num n) = some n) ∧
    (∀ n : Int, 1000 < n → parseDurationMinutesV10 (JSVal.num n) = some (roundDiv60 n)) ∧
    (parseDurationMinutesV10 (JSVal.str "02:30") = some 150) ∧
    (parseDurationMinutesV10 (JSVal.str "45") = some 45) ∧
    (∀ n : Int, n < 0 → parseDurationMinutesV10 (JSVal.num n) = some n) ∧
    (parseDurationMinutesV10 (JSVal.num 0) = some 60) ∧
    (parseDurationMinutesV10 JSVal.undef = some 60) ∧
    (parseDurationMinutesV10 (JSVal.str "abc") = some 60) ∧
    (∀ n : Int, 0 < n → parseDurationMinutesV11 (JSVal.num n) = n) ∧
    (∀ n : Int, n ≤ 0 → parseDurationMinutesV11 (JSVal.num n) = 60) ∧
    (parseDurationMinutesV11 (JSVal.str "02:30") = 60) ∧
    (parseDurationMinutesV11 JSVal.undef = 60) := by
  refine ⟨?_, ?_, by decide, by decide, ?_, by decide, by decide, by decide, ?_, ?_,
    by decide, by decide⟩
  · intro n h1 h2
    have h0 : (n == 0) = false := by simp; omega
    simp only [parseDurationMinutesV10, jsFalsy, h0, Bool.false_eq_true, if_false]
    rw [if_neg (by omega)]
  · intro n h1
    have h0 : (n == 0) = false := by simp; omega
    simp only [parseDurationMinutesV10, jsFalsy, h0, Bool.false_eq_true, if_false]
    rw [if_pos (by omega)]
  · intro n h1
    have h0 : (n == 0) = false := by simp; omega
    simp only [parseDurationMinutesV10, jsFalsy, h0, Bool.false_eq_true, if_false]
    rw [if_neg (by omega)]
  · intro n h1
    simp only [parseDurationMinutesV11, jsToNumber]
    rw [if_pos h1]
  · intro n h1
    simp only [parseDurationMinutesV11, jsToNumber]
    rw [if_neg (by omega)]

/-- C9 amended witness: the characterization instantiated at 90, 3600 and
-7 minutes. -/
theorem parseDuration_characterization_witness :
    parseDurationMinutesV10 (JSVal.num 90) = some 90 ∧
    parseDurationMinutesV10 (JSVal.num 3600) = some (roundDiv60 3600) ∧
    parseDurationMinutesV10 (JSVal.num (-7)) = some (-7) ∧
    parseDurationMinutesV11 (JSVal.num 90) = 90 ∧
    parseDurationMinutesV11 (JSVal.num (-7)) = 60 := by
  obtain ⟨h1, h2, _, _, h5, _, _, _, h9, h10, _, _⟩ := parseDuration_characterization
  exact ⟨h1 90 (by decide) (by decide), h2 3600 (by decide), h5 (-7) (by decide),
    h9 90 (by decide), h10 (-7) (by decide)⟩

/-- C10: the candidate-day loop bound is `rangeDays` clamped to `[1, 30]`,
defaulting to 14 for omitted, zero or empty input; no request scans more
than 30 days (a non-numeric input yields a NaN bound, scanning 0 days); the
part_002 variant's clamp (max-outside) computes the same value as the V11
clamp (min-outside). -/
theorem rangeDays_clamped :
    (∀ v : JSVal, candidateDaysScannedV11 v ≤ 30) ∧
    (∀ n : Int, n ≠ 0 → candidateDaysScannedV11 (JSVal.num n) = (min 30 (max 1 n)).toNat) ∧
    (candidateDaysScannedV11 JSVal.undef = 14) ∧
    (candidateDaysScannedV11 (JSVal.num 0) = 14) ∧
    (candidateDaysScannedV11 (JSVal.str "") = 14) ∧
    (∀ v : JSVal, clampRangeDaysAlt v = clampRangeDaysV11 v) ∧
    (∀ n : Int, 1 ≤ n → n ≤ 30 → candidateDaysScannedV11 (JSVal.num n) = n.toNat) := by
  refine ⟨?_, ?_, by decide, by decide, by decide, ?_, ?_⟩
  · intro v
    unfold candidateDaysScannedV11 clampRangeDaysV11
    cases hj : jsToNumber (if jsFalsy v then JSVal.num 14 else v) with
    | none => simp
    | some n => simp
  · intro n hn
    have h0 : (n == 0) = false := by simp [hn]
    simp [candidateDaysScannedV11, clampRangeDaysV11, jsFalsy, jsToNumber, h0]
  · intro v
    unfold clampRangeDaysAlt clampRangeDaysV11
    cases hj : jsToNumber (if jsFalsy v then JSVal.num 14 else v) with
    | none => rfl
    | some n => simp only [Option.some.injEq]; omega
  · intro n h1 h2
    have h0 : (n == 0) = false := by simp; omega
    simp [candidateDaysScannedV11, clampRangeDaysV11, jsFalsy, jsToNumber, h0]
    omega

/-- C10 witness: 99 days are clamped to 30, 7 stays 7. -/
theorem rangeDays_clamped_witness :
    candidateDaysScannedV11 (JSVal.num 99) ≤ 30 ∧
    candidateDaysScannedV11 (JSVal.num 99) = (min 30 (max 1 (99 : Int))).toNat ∧
    candidateDaysScannedV11 (JSVal.num 7) = (7 : Int).toNat := by
  obtain ⟨h1, h2, _, _, _, _, h7⟩ := rangeDays_clamped
  exact ⟨h1 _, h2 99 (by decide), h7 7 (by decide) (by decide)⟩

end Marsalva
